import Mathlib

/-!
Shallow embedding of xslack/slack.py: a convenience layer over a remote
messaging API (Client and CachedClient dispatch, indexed entity
collections, emoji alias resolution, channel history pagination).

Python dictionaries are modelled as association lists with string keys,
insertion-ordered and duplicate-free, as Python builds them.  Exceptions
are modelled with Option/Except.  JSON-like payloads are modelled by the
inductive JVal below.
-/

namespace XSlack

/-- A parsed JSON-like value, as returned by the transport collaborator
and stored in cache files. -/
inductive JVal where
  | str (s : String)
  | num (n : Int)
  | bool (b : Bool)
  | null
  | arr (elems : List JVal)
  | obj (fields : List (String × JVal))

/-- First-match lookup in an insertion-ordered string-keyed mapping;
none models a Python KeyError / dict.get miss. -/
def alistLookup {α : Type} (m : List (String × α)) (k : String) : Option α :=
  match m with
  | [] => none
  | (k', v) :: rest => if k' = k then some v else alistLookup rest k

/-- Python dict assignment d[k] = v: replaces the value in place when the
key exists (keeping its position), appends otherwise. -/
def dictInsert {α : Type} (m : List (String × α)) (k : String) (v : α) :
    List (String × α) :=
  match m with
  | [] => [(k, v)]
  | (k', v') :: rest =>
      if k' = k then (k', v) :: rest else (k', v') :: dictInsert rest k v

/-- Attribute access on an AttrDict-wrapped payload: field lookup on an
object, none models AttributeError. -/
def getAttr (r : JVal) (k : String) : Option JVal :=
  match r with
  | .obj fields => alistLookup fields k
  | _ => none

/-- Python truthiness of a JSON-like value, as used by `if not resp.ok`
and `if ret.ok` in slack.py. -/
def jTruthy : JVal → Bool
  | .bool b => b
  | .num n => decide (n ≠ 0)
  | .str s => decide (s ≠ "")
  | .null => false
  | .arr xs => !xs.isEmpty
  | .obj fs => !fs.isEmpty

end XSlack

namespace XSlack

/-! ## Emoji (Emojies.__getitem__, Emoji.__init__, slack.py lines 298-325) -/

/-- The Emoji entity: name, raw image string, resolved type ("image" or
"alias") and resolved image_url. -/
structure Emoji where
  name : String
  image : String
  type : String
  image_url : Option String
deriving Repr, DecidableEq

/-- Errors raised while constructing an Emoji: typeError models the
TypeError from None[1] when re.match("alias:(.+)", image) fails, and
recursionError models Python recursion exhaustion on cyclic aliases. -/
inductive EmojiErr where
  | typeError
  | recursionError
deriving Repr, DecidableEq

/-- Does the character list s begin with the marker m?  (Character-list
implementation of the str.startswith test, kept kernel-reducible.) -/
def beginsWith : List Char → List Char → Bool
  | _, [] => true
  | [], _ :: _ => false
  | c :: cs, m :: ms => c == m && beginsWith cs ms

/-- image.startswith("alias:"). -/
def startsWithAlias (image : String) : Bool :=
  beginsWith image.data "alias:".data

/-- Group 1 of re.match("alias:(.+)", image) when image starts with
"alias:": the run of non-newline characters after the 6-character
"alias:" marker (regex . does not match a newline); empty means the
regex did not match. -/
def aliasTarget (image : String) : String :=
  String.mk ((image.data.drop 6).takeWhile (fun c => c != '\n'))

/-- Emoji.__init__ over the raw emoji mapping data of the parent
Emojies collection.  A non-alias image is kept as image_url directly
(_init_image).  An alias resolves its target through parent.get, which
recursively constructs the target Emoji when the name is present and
yields None when absent (_init_alias).  The fuel argument bounds the
alias-chain recursion depth, standing in for the Python recursion
limit. -/
def mkEmoji (data : List (String × String)) :
    Nat → String → String → Except EmojiErr Emoji
  | 0, _, _ => .error .recursionError
  | fuel + 1, name, image =>
    if startsWithAlias image then
      let target := aliasTarget image
      if target = "" then .error .typeError
      else
        match alistLookup data target with
        | none => .ok ⟨name, image, "alias", none⟩
        | some timg =>
          match mkEmoji data fuel target timg with
          | .error e => .error e
          | .ok te => .ok ⟨name, image, "alias", te.image_url⟩
    else .ok ⟨name, image, "image", some image⟩

/-- Errors escaping Emojies.__getitem__: a missing key (KeyError) or an
error from Emoji construction. -/
inductive EmojiLookupErr where
  | keyError
  | emojiErr (e : EmojiErr)
deriving Repr, DecidableEq

/-- Emojies.__getitem__(key): look the raw image string up in the
underlying mapping and construct the Emoji.  Fuel data.length + 1
suffices for every acyclic alias chain, since a chain cannot revisit a
name without cycling. -/
def emojiesGetItem (data : List (String × String)) (key : String) :
    Except EmojiLookupErr Emoji :=
  match alistLookup data key with
  | none => .error .keyError
  | some img =>
    match mkEmoji data (data.length + 1) key img with
    | .error e => .error (.emojiErr e)
    | .ok e => .ok e

/-! ## Channels index (Channels._createIndex / byName, lines 143-159)

The Python code is duck-typed over the channel records, reading only the
name attribute for indexing; the embedding fixes the record shape to the
two string attributes the records carry in the claims. -/

/-- A raw channel record with its name and id attributes. -/
structure ChRecord where
  name : String
  id : String
deriving Repr, DecidableEq

/-- Channels._createIndex: fold over the member records assigning
by_name[x.name] = x, later duplicates overwriting earlier ones. -/
def createIndexByName (data : List ChRecord) : List (String × ChRecord) :=
  data.foldl (fun idx x => dictInsert idx x.name x) []

/-- Channels.byName(name): index lookup; none models the KeyError on an
absent name.  (The Python wrapper re-wraps the record as a Channel bound
to the client; the record itself carries the identity.) -/
def channelsByName (data : List ChRecord) (n : String) : Option ChRecord :=
  alistLookup (createIndexByName data) n

/-! ## Channel.history_after (slack.py lines 189-203)

The transport is mocked as a queue of history pages consumed one per
call, and every call made to channels.history is logged with the oldest
and inclusive arguments it received.  Running out of queued pages while
has_more is still true is reported as none (the mock has no further
response; in Python the loop would keep calling). -/

/-- A message as it appears in a history response; only the ts attribute
is read by the pagination loop. -/
structure HMsg where
  ts : String
deriving Repr, DecidableEq

/-- One channels.history response page: messages newest-first plus the
has_more flag. -/
structure HPage where
  messages : List HMsg
  has_more : Bool
deriving Repr, DecidableEq

/-- The arguments of one channels.history call made by the loop. -/
structure HCall where
  oldest : String
  inclusive : Bool
deriving Repr, DecidableEq

/-- The ChannelHistory produced by history_after, plus the log of the
history calls that were made. -/
structure HResult where
  messages : List HMsg
  has_more : Bool
  calls : List HCall
deriving Repr, DecidableEq

/-- One while-iteration of Channel.history_after, consuming the next
queued page: read has_more from the response; if the page is non-empty,
extend the running list with the reversed page, move next_ts to the ts
of the last message of the running list and force inclusive to false;
loop while has_more. -/
def historyAfterLoop :
    List HPage → List HMsg → String → Bool → List HCall → Option HResult
  | [], _, _, _, _ => none
  | p :: rest, msgs, next_ts, inclusive, calls =>
    let calls := calls ++ [⟨next_ts, inclusive⟩]
    let has_more := p.has_more
    if p.messages.isEmpty then
      if has_more then historyAfterLoop rest msgs next_ts inclusive calls
      else some ⟨msgs, has_more, calls⟩
    else
      let msgs := msgs ++ p.messages.reverse
      let next_ts := (msgs.getLastD ⟨""⟩).ts
      if has_more then historyAfterLoop rest msgs next_ts false calls
      else some ⟨msgs, has_more, calls⟩

/-- Channel.history_after(ts, inclusive): start with an empty message
list, next_ts = ts and has_more = true (so the first iteration always
runs), then iterate. -/
def history_after (pages : List HPage) (ts : String) (inclusive : Bool) :
    Option HResult :=
  historyAfterLoop pages [] ts inclusive []

/-! ## CachedClient (slack.py lines 46-100)

State of one CachedClient instance together with its environment: the
in-memory _cache mapping, the cache files on disk (path to parsed
content), and the transport mocked as a queue of responses.  The
transportCalls and diskReads counters record how often the transport is
invoked and how often the _inner disk path runs. -/

/-- Errors escaping CachedClient.api_call: the typed ApiFailed carrying
the error field of the response, attrError for an AttributeError on a
payload missing ok or error, and noResponse when the mocked transport
queue is exhausted. -/
inductive CErr where
  | apiFailed (e : JVal)
  | attrError
  | noResponse

/-- A CachedClient instance plus its mocked environment. -/
structure CState where
  cacheDir : String
  cache : List (String × JVal)
  fs : List (String × JVal)
  transport : List JVal
  transportCalls : Nat
  diskReads : Nat

/-- Client.api_call as seen from CachedClient: one transport invocation
consuming the next queued response. -/
def callTransport (s : CState) : Except CErr JVal × CState :=
  match s.transport with
  | [] => (.error .noResponse, { s with transportCalls := s.transportCalls + 1 })
  | r :: rest =>
      (.ok r, { s with transport := rest, transportCalls := s.transportCalls + 1 })

/-- CachedClient.with_cache(cache, pred): return the memoized value when
the key is already in the in-memory mapping; otherwise run _inner — read
and return the file when it exists, else invoke the underlying call and,
when its ok field is truthy, write it to the cache file — and memoize
the value _inner returned.  An exception from _inner propagates without
memoizing. -/
def with_cache (s : CState) (cachePath : String) : Except CErr JVal × CState :=
  match alistLookup s.cache cachePath with
  | some v => (.ok v, s)
  | none =>
    let s1 : CState := { s with diskReads := s.diskReads + 1 }
    match alistLookup s1.fs cachePath with
    | some content =>
        (.ok content, { s1 with cache := dictInsert s1.cache cachePath content })
    | none =>
      match callTransport s1 with
      | (.error e, s2) => (.error e, s2)
      | (.ok ret, s2) =>
        match getAttr ret "ok" with
        | none => (.error .attrError, s2)
        | some okv =>
          let s3 : CState :=
            if jTruthy okv then { s2 with fs := dictInsert s2.fs cachePath ret }
            else s2
          (.ok ret, { s3 with cache := dictInsert s3.cache cachePath ret })

/-- Split a character list at every occurrence of sep, like the Python
str.split with an explicit separator: no run merging, an empty input
yields one empty component. -/
def splitOnChar (sep : Char) : List Char → List (List Char)
  | [] => [[]]
  | c :: cs =>
    match splitOnChar sep cs with
    | [] => [[]]
    | r :: rs => if c == sep then [] :: r :: rs else (c :: r) :: rs

/-- method.split("."), as used to compute the cache key. -/
def pySplitDot (s : String) : List String :=
  (splitOnChar '.' s.data).map String.mk

/-- The cache-key computation of CachedClient.api_call: a method of the
shape resource.list (at least two dot components, last one "list") maps
to the deterministic path cacheDir/first-last.json; any other method is
uncached. -/
def cacheFileFor (cacheDir method : String) : Option String :=
  let comp := pySplitDot method
  if comp.length ≥ 2 ∧ comp.getLastD "" = "list" then
    some (cacheDir ++ "/" ++ comp.headD "" ++ "-" ++ comp.getLastD "" ++ ".json")
  else none

/-- Resolution step of CachedClient.api_call (lines 80-95): through
with_cache when a cache file path applies, directly through the
underlying call otherwise. -/
def resolveResp (s : CState) (method : String) : Except CErr JVal × CState :=
  match cacheFileFor s.cacheDir method with
  | some p => with_cache s p
  | none => callTransport s

/-- The uniform ok check of CachedClient.api_call (lines 97-100): a
falsy ok field raises ApiFailed(resp.error); a truthy one returns the
wrapped response. -/
def checkOk (resp : JVal) : Except CErr JVal :=
  match getAttr resp "ok" with
  | none => .error .attrError
  | some okv =>
    if jTruthy okv then .ok resp
    else
      match getAttr resp "error" with
      | none => .error .attrError
      | some ev => .error (.apiFailed ev)

/-- CachedClient.api_call(method): resolve the response, then apply the
uniform ok check. -/
def cachedApiCall (s : CState) (method : String) : Except CErr JVal × CState :=
  match resolveResp s method with
  | (.error e, s') => (.error e, s')
  | (.ok resp, s') => (checkOk resp, s')

/-! ## CachedClient.__init__ and _setup_cache_dir (lines 52-59) -/

/-- An abstract view of the filesystem predicates os.path.isdir and
os.path.isfile. -/
structure FsView where
  isdir : String → Bool
  isfile : String → Bool

/-- CachedClient.__init__(cache_dir): store the directory and an empty
in-memory mapping.  It performs no filesystem access at all — in
particular it never invokes _setup_cache_dir — so it cannot raise, and
the embedding does not even take an FsView. -/
def cachedClientInit (cache_dir : String) : Except String (String × List (String × JVal)) :=
  .ok (cache_dir, [])

/-- CachedClient._setup_cache_dir as written: raise "... is not a
directory" when os.path.isdir(cache_dir) is TRUE, return None
otherwise.  (Dead code: nothing calls it.) -/
def setup_cache_dir (fs : FsView) (cache_dir : String) : Except String Unit :=
  if fs.isdir cache_dir then .error (cache_dir ++ " is not a directory")
  else .ok ()

/-! ## Client.api_call parameter handling (slack.py lines 26-36) -/

/-- The dict union of params and the keyword arguments,
union_params = the merge of params then kwargs: keys of params keep
their order, kwargs values override shared keys in place, fresh kwargs
keys are appended in order. -/
def dictUnion {α : Type} (a b : List (String × α)) : List (String × α) :=
  b.foldl (fun acc kv => dictInsert acc kv.1 kv.2) a

/-- The per-value body of the normalization loop: a boolean value
becomes the integer 1 or 0, any other value is untouched. -/
def normBool : JVal → JVal
  | .bool b => .num (if b then 1 else 0)
  | v => v

/-- The merged parameter mapping Client.api_call hands to the transport:
the dict union of params and kwargs, with the loop rewriting each
boolean value in place (assigning an existing key keeps its position, so
the loop is a value-wise map). -/
def unionParams (params kwargs : List (String × JVal)) : List (String × JVal) :=
  (dictUnion params kwargs).map (fun kv => (kv.1, normBool kv.2))

/-! ## Shared lemmas about the mapping operations -/

theorem alistLookup_dictInsert_self {α : Type} :
    ∀ (m : List (String × α)) (k : String) (v : α),
      alistLookup (dictInsert m k v) k = some v := by
  intro m k v
  induction m with
  | nil => simp [dictInsert, alistLookup]
  | cons kv rest ih =>
    by_cases h : kv.1 = k
    · simp [dictInsert, alistLookup, h]
    · cases kv with
      | mk k' v' =>
        simp only at h
        simp [dictInsert, alistLookup, h, ih]

theorem alistLookup_dictInsert_ne {α : Type} :
    ∀ (m : List (String × α)) (k' k : String) (v : α), k' ≠ k →
      alistLookup (dictInsert m k' v) k = alistLookup m k := by
  intro m k' k v hne
  induction m with
  | nil => simp [dictInsert, alistLookup, hne]
  | cons kv rest ih =>
    cases kv with
    | mk k0 v0 =>
      by_cases h : k0 = k'
      · simp [dictInsert, alistLookup, h, hne]
      · simp [dictInsert, alistLookup, h, ih]

theorem alistLookup_mapVal {α β : Type} (f : α → β) :
    ∀ (m : List (String × α)) (k : String),
      alistLookup (m.map (fun kv => (kv.1, f kv.2))) k = (alistLookup m k).map f := by
  intro m k
  induction m with
  | nil => rfl
  | cons kv rest ih =>
    cases kv with
    | mk k' v =>
      by_cases h : k' = k
      · simp [alistLookup, h]
      · simp [alistLookup, h, ih]

theorem alistLookup_dictUnion_notMem {α : Type} :
    ∀ (b a : List (String × α)) (k : String), k ∉ b.map Prod.fst →
      alistLookup (dictUnion a b) k = alistLookup a k := by
  intro b
  induction b with
  | nil => intro a k _; rfl
  | cons kv bs ih =>
    intro a k hk
    cases kv with
    | mk k0 v0 =>
      simp only [List.map, List.mem_cons, not_or] at hk
      have step : dictUnion a ((k0, v0) :: bs) = dictUnion (dictInsert a k0 v0) bs := rfl
      rw [step, ih _ k hk.2, alistLookup_dictInsert_ne _ _ _ _ (fun h => hk.1 h.symm)]

theorem alistLookup_dictUnion_right {α : Type} :
    ∀ (b a : List (String × α)) (k : String) (v : α),
      (b.map Prod.fst).Nodup → alistLookup b k = some v →
      alistLookup (dictUnion a b) k = some v := by
  intro b
  induction b with
  | nil => intro a k v _ hk; simp [alistLookup] at hk
  | cons kv bs ih =>
    intro a k v hnd hk
    cases kv with
    | mk k0 v0 =>
      simp only [List.map, List.nodup_cons] at hnd
      have step : dictUnion a ((k0, v0) :: bs) = dictUnion (dictInsert a k0 v0) bs := rfl
      by_cases h : k0 = k
      · subst h
        simp only [alistLookup, if_pos rfl] at hk
        cases hk
        rw [step, alistLookup_dictUnion_notMem _ _ _ hnd.1,
          alistLookup_dictInsert_self]
      · simp only [alistLookup, if_neg h] at hk
        rw [step, ih _ k v hnd.2 hk]

end XSlack

namespace XSlack

/-! ## Claim theorems -/

/-- C6: for an Emojies collection built from smile mapping to an image
url and grin mapping to "alias:smile", looking up grin yields an Emoji
of type "alias" whose image_url is the url of smile; for a collection
built from ghost mapping to "alias:missing", looking up ghost yields an
Emoji whose image_url is none and no error is raised. -/
theorem c6_emoji_alias_resolution :
    emojiesGetItem [("smile", "https://x/smile.png"), ("grin", "alias:smile")] "grin"
      = .ok ⟨"grin", "alias:smile", "alias", some "https://x/smile.png"⟩ ∧
    emojiesGetItem [("ghost", "alias:missing")] "ghost"
      = .ok ⟨"ghost", "alias:missing", "alias", none⟩ :=
  ⟨rfl, rfl⟩

/-- C7: on a Channels collection built from the records general/C1 and
random/C2, byName general returns the record whose id is C1, and byName
on any name not present among the members resolves to none, the
KeyError case. -/
theorem c7_channels_byName :
    channelsByName [⟨"general", "C1"⟩, ⟨"random", "C2"⟩] "general"
      = some ⟨"general", "C1"⟩ ∧
    ∀ n : String, n ≠ "general" → n ≠ "random" →
      channelsByName [⟨"general", "C1"⟩, ⟨"random", "C2"⟩] n = none := by
  refine ⟨rfl, ?_⟩
  intro n h1 h2
  simp [channelsByName, createIndexByName, dictInsert, alistLookup,
    Ne.symm h1, Ne.symm h2]

/-- Witness for C7: the absent name "absent" resolves to none. -/
theorem c7_channels_byName_witness :
    channelsByName [⟨"general", "C1"⟩, ⟨"random", "C2"⟩] "absent" = none :=
  c7_channels_byName.2 "absent" (by decide) (by decide)

/-- C10: constructing an Emoji whose image string is exactly "alias:"
raises an exception (the alias marker test passes but the regex
"alias:(.+)" does not match, so None is indexed, a TypeError) instead
of producing an Emoji with image_url none, for every parent collection,
name and positive recursion budget. -/
theorem c10_alias_empty_target (data : List (String × String)) (name : String)
    (fuel : Nat) :
    mkEmoji data (fuel + 1) name "alias:" = .error .typeError := rfl

/-- Counterexample to C1 as stated: on the mocked transport returning
the page ts 3, ts 2 with has_more true and then the page ts 1 with
has_more false, history_after returns the messages in the order
2, 3, 1, not in the claimed order 1, 2, 3. -/
theorem c1_history_after_counterexample :
    history_after [⟨[⟨"3"⟩, ⟨"2"⟩], true⟩, ⟨[⟨"1"⟩], false⟩] "0" true
      = some ⟨[⟨"2"⟩, ⟨"3"⟩, ⟨"1"⟩], false, [⟨"0", true⟩, ⟨"3", false⟩]⟩ ∧
    ([⟨"2"⟩, ⟨"3"⟩, ⟨"1"⟩] : List HMsg) ≠ [⟨"1"⟩, ⟨"2"⟩, ⟨"3"⟩] :=
  ⟨rfl, by decide⟩

/-- C1 amended: on that mocked transport the returned ChannelHistory
holds the messages in the order ts 2, 3, 1 (each page is reversed to
oldest-first and the pages are appended in fetch order), its has_more
field is false, and the inclusive argument is passed as given on the
first history call and as false on the subsequent call, whose oldest
argument is the ts of the newest message seen so far. -/
theorem c1_history_after_pagination (ts : String) (i : Bool) :
    history_after [⟨[⟨"3"⟩, ⟨"2"⟩], true⟩, ⟨[⟨"1"⟩], false⟩] ts i
      = some ⟨[⟨"2"⟩, ⟨"3"⟩, ⟨"1"⟩], false, [⟨ts, i⟩, ⟨"3", false⟩]⟩ := rfl

/-- C5: constructing a CachedClient performs no path validation at all —
with the cache directory named cache.txt, standing for an existing plain
file, construction succeeds and consults no filesystem predicate — and
the dead helper _setup_cache_dir would not raise on that plain file
either, while on an actual directory it raises the message saying the
path is not a directory, contradicting its own condition. -/
theorem c5_cachedClientInit_no_check :
    cachedClientInit "cache.txt" = .ok ("cache.txt", []) ∧
    setup_cache_dir ⟨fun _ => false, fun p => p == "cache.txt"⟩ "cache.txt"
      = .ok () ∧
    setup_cache_dir ⟨fun p => p == "cache", fun _ => false⟩ "cache"
      = .error ("cache is not a directory") :=
  ⟨rfl, rfl, rfl⟩

/-- C8: Client.api_call merges params and the keyword arguments into one
mapping and, for every key, the value the transport receives is the
merged value with a boolean replaced by the integer 1 or 0 and any
non-boolean value passed through unchanged. -/
theorem c8_boolean_normalization (params kwargs : List (String × JVal))
    (k : String) (v : JVal)
    (h : alistLookup (dictUnion params kwargs) k = some v) :
    alistLookup (unionParams params kwargs) k = some (normBool v) ∧
    normBool (.bool true) = .num 1 ∧
    normBool (.bool false) = .num 0 ∧
    ((∀ b : Bool, v ≠ .bool b) → normBool v = v) := by
  refine ⟨?_, rfl, rfl, ?_⟩
  · rw [unionParams, alistLookup_mapVal, h]
    rfl
  · intro hnb
    cases v with
    | bool b => exact ((hnb b) rfl).elim
    | str s => rfl
    | num n => rfl
    | null => rfl
    | arr xs => rfl
    | obj fs => rfl

/-- Witness for C8: a true flag in params is transmitted as the
integer 1. -/
theorem c8_boolean_normalization_witness :
    alistLookup (unionParams [("a", JVal.bool true)] [("b", JVal.str "x")]) "a"
      = some (JVal.num 1) :=
  (c8_boolean_normalization [("a", JVal.bool true)] [("b", JVal.str "x")]
    "a" (JVal.bool true) rfl).1

/-- C9: when a key appears both in params and among the keyword
arguments, the keyword value wins in the merged mapping handed to the
transport (after boolean normalization). -/
theorem c9_kwargs_override (params kwargs : List (String × JVal))
    (k : String) (v : JVal)
    (hnd : (kwargs.map Prod.fst).Nodup)
    (hk : alistLookup kwargs k = some v) :
    alistLookup (unionParams params kwargs) k = some (normBool v) := by
  rw [unionParams, alistLookup_mapVal,
    alistLookup_dictUnion_right kwargs params k v hnd hk]
  rfl

/-- Witness for C9: a key present in params and kwargs resolves to the
kwargs value. -/
theorem c9_kwargs_override_witness :
    alistLookup (unionParams [("a", JVal.str "old")] [("a", JVal.str "new")]) "a"
      = some (JVal.str "new") :=
  c9_kwargs_override [("a", JVal.str "old")] [("a", JVal.str "new")] "a"
    (JVal.str "new") (by simp) rfl

/-- C3: whatever resolution produced the response (memory, cache file or
fresh transport call), CachedClient.api_call applies the uniform check:
a truthy ok field returns the wrapped response unchanged and a falsy ok
field raises ApiFailed carrying the error field of the response. -/
theorem c3_uniform_ok_check (s : CState) (method : String) (resp : JVal)
    (s' : CState) (okv : JVal)
    (hres : resolveResp s method = (.ok resp, s'))
    (hok : getAttr resp "ok" = some okv) :
    (jTruthy okv = true → cachedApiCall s method = (.ok resp, s')) ∧
    (jTruthy okv = false → ∀ ev : JVal, getAttr resp "error" = some ev →
      cachedApiCall s method = (.error (.apiFailed ev), s')) := by
  constructor
  · intro ht
    simp [cachedApiCall, hres, checkOk, hok, ht]
  · intro hf ev hev
    simp [cachedApiCall, hres, checkOk, hok, hf, hev]

/-- Witness for C3: an uncached method resolving to an ok response is
returned unchanged. -/
theorem c3_uniform_ok_check_witness :
    cachedApiCall ⟨".", [], [], [JVal.obj [("ok", JVal.bool true)]], 0, 0⟩ "foo"
      = (.ok (JVal.obj [("ok", JVal.bool true)]), ⟨".", [], [], [], 1, 0⟩) :=
  (c3_uniform_ok_check ⟨".", [], [], [JVal.obj [("ok", JVal.bool true)]], 0, 0⟩
    "foo" (JVal.obj [("ok", JVal.bool true)]) ⟨".", [], [], [], 1, 0⟩
    (JVal.bool true) rfl rfl).1 rfl

/-- Counterexample to C2 as stated: a users.list call whose cache key
resolves to an existing file holding a payload with ok false is not
returned to the caller — the uniform check still runs and raises
ApiFailed carrying the stored error field (though indeed no transport
call is made). -/
theorem c2_disk_hit_counterexample :
    (cachedApiCall
        ⟨".", [],
         [("./users-list.json",
           JVal.obj [("ok", JVal.bool false), ("error", JVal.str "oops")])],
         [], 0, 0⟩ "users.list").1
      = .error (.apiFailed (.str "oops")) ∧
    (cachedApiCall
        ⟨".", [],
         [("./users-list.json",
           JVal.obj [("ok", JVal.bool false), ("error", JVal.str "oops")])],
         [], 0, 0⟩ "users.list").1
      ≠ .ok (JVal.obj [("ok", JVal.bool false), ("error", JVal.str "oops")]) ∧
    (cachedApiCall
        ⟨".", [],
         [("./users-list.json",
           JVal.obj [("ok", JVal.bool false), ("error", JVal.str "oops")])],
         [], 0, 0⟩ "users.list").2.transportCalls = 0 := by
  refine ⟨rfl, ?_, rfl⟩
  intro h
  exact Except.noConfusion h

/-- C2 amended: a list-method call whose cache key resolves to an
existing file parses the file content and uses it as the response with
no transport call made, bypassing the ok test guarding the cache write
inside with_cache; the uniform ok/error check of api_call still applies
to the stored payload, so a stored record with falsy ok raises
ApiFailed rather than being returned. -/
theorem c2_disk_resolution (s : CState) (method p : String) (content : JVal)
    (h1 : cacheFileFor s.cacheDir method = some p)
    (h2 : alistLookup s.cache p = none)
    (h3 : alistLookup s.fs p = some content) :
    cachedApiCall s method
      = (checkOk content,
         { s with diskReads := s.diskReads + 1,
                  cache := dictInsert s.cache p content }) ∧
    (cachedApiCall s method).2.transportCalls = s.transportCalls ∧
    (cachedApiCall s method).2.transport = s.transport := by
  have main : cachedApiCall s method
      = (checkOk content,
         { s with diskReads := s.diskReads + 1,
                  cache := dictInsert s.cache p content }) := by
    simp [cachedApiCall, resolveResp, h1, with_cache, h2, h3]
  refine ⟨main, ?_, ?_⟩ <;> rw [main]

/-- Helper for the memoization claim: after a cached api_call, the cache
directory is unchanged, and whatever value sits memoized under the cache
key determines the result of the call as its uniform ok check. -/
theorem cachedApiCall_memo_inv (s0 : CState) (method p : String)
    (r1 : Except CErr JVal) (s1 : CState)
    (hp : cacheFileFor s0.cacheDir method = some p)
    (hcall : cachedApiCall s0 method = (r1, s1)) :
    s1.cacheDir = s0.cacheDir ∧
    ∀ resp : JVal, alistLookup s1.cache p = some resp → r1 = checkOk resp := by
  cases hc : alistLookup s0.cache p with
  | some v =>
    have hw : cachedApiCall s0 method = (checkOk v, s0) := by
      simp [cachedApiCall, resolveResp, hp, with_cache, hc]
    rw [hcall, Prod.mk.injEq] at hw
    obtain ⟨h1, h2⟩ := hw
    subst h1; subst h2
    refine ⟨rfl, ?_⟩
    intro resp hmem
    rw [hc] at hmem
    cases hmem
    rfl
  | none =>
    cases hf : alistLookup s0.fs p with
    | some content =>
      have hw : cachedApiCall s0 method
          = (checkOk content,
             { s0 with diskReads := s0.diskReads + 1,
                       cache := dictInsert s0.cache p content }) := by
        simp [cachedApiCall, resolveResp, hp, with_cache, hc, hf]
      rw [hcall, Prod.mk.injEq] at hw
      obtain ⟨h1, h2⟩ := hw
      subst h1; subst h2
      refine ⟨rfl, ?_⟩
      intro resp hmem
      simp only [alistLookup_dictInsert_self] at hmem
      cases hmem
      rfl
    | none =>
      cases ht : s0.transport with
      | nil =>
        have hw : cachedApiCall s0 method
            = (.error .noResponse,
               { s0 with diskReads := s0.diskReads + 1,
                         transportCalls := s0.transportCalls + 1 }) := by
          simp [cachedApiCall, resolveResp, hp, with_cache, hc, hf,
            callTransport, ht]
        rw [hcall, Prod.mk.injEq] at hw
        obtain ⟨h1, h2⟩ := hw
        subst h1; subst h2
        refine ⟨rfl, ?_⟩
        intro resp hmem
        simp only at hmem
        rw [hc] at hmem
        exact Option.noConfusion hmem
      | cons r rest =>
        cases hok : getAttr r "ok" with
        | none =>
          have hw : cachedApiCall s0 method
              = (.error .attrError,
                 { s0 with diskReads := s0.diskReads + 1,
                           transport := rest,
                           transportCalls := s0.transportCalls + 1 }) := by
            simp [cachedApiCall, resolveResp, hp, with_cache, hc, hf,
              callTransport, ht, hok]
          rw [hcall, Prod.mk.injEq] at hw
          obtain ⟨h1, h2⟩ := hw
          subst h1; subst h2
          refine ⟨rfl, ?_⟩
          intro resp hmem
          simp only at hmem
          rw [hc] at hmem
          exact Option.noConfusion hmem
        | some okv =>
          by_cases htr : jTruthy okv
          · have hw : cachedApiCall s0 method
                = (checkOk r,
                   { s0 with diskReads := s0.diskReads + 1,
                             transport := rest,
                             transportCalls := s0.transportCalls + 1,
                             fs := dictInsert s0.fs p r,
                             cache := dictInsert s0.cache p r }) := by
              simp [cachedApiCall, resolveResp, hp, with_cache, hc, hf,
                callTransport, ht, hok, htr]
            rw [hcall, Prod.mk.injEq] at hw
            obtain ⟨h1, h2⟩ := hw
            subst h1; subst h2
            refine ⟨rfl, ?_⟩
            intro resp hmem
            simp only [alistLookup_dictInsert_self] at hmem
            cases hmem
            rfl
          · have hw : cachedApiCall s0 method
                = (checkOk r,
                   { s0 with diskReads := s0.diskReads + 1,
                             transport := rest,
                             transportCalls := s0.transportCalls + 1,
                             cache := dictInsert s0.cache p r }) := by
              simp [cachedApiCall, resolveResp, hp, with_cache, hc, hf,
                callTransport, ht, hok, htr]
            rw [hcall, Prod.mk.injEq] at hw
            obtain ⟨h1, h2⟩ := hw
            subst h1; subst h2
            refine ⟨rfl, ?_⟩
            intro resp hmem
            simp only [alistLookup_dictInsert_self] at hmem
            cases hmem
            rfl

/-- C4: on the same instance, once a list-method cache key has been
resolved and memoized, a second api_call with the same method returns
the same value as the first and leaves the whole state unchanged — in
particular the transport-call counter, the disk-read counter and the
queued transport responses are untouched. -/
theorem c4_memoized_second_call (s0 : CState) (method p : String)
    (r1 : Except CErr JVal) (s1 : CState) (resp : JVal)
    (hp : cacheFileFor s0.cacheDir method = some p)
    (hcall : cachedApiCall s0 method = (r1, s1))
    (hmem : alistLookup s1.cache p = some resp) :
    cachedApiCall s1 method = (r1, s1) ∧
    (cachedApiCall s1 method).2.transportCalls = s1.transportCalls ∧
    (cachedApiCall s1 method).2.diskReads = s1.diskReads ∧
    (cachedApiCall s1 method).2.transport = s1.transport := by
  obtain ⟨hdir, hr⟩ := cachedApiCall_memo_inv s0 method p r1 s1 hp hcall
  have hp1 : cacheFileFor s1.cacheDir method = some p := by rw [hdir]; exact hp
  have hres : r1 = checkOk resp := hr resp hmem
  have main : cachedApiCall s1 method = (r1, s1) := by
    simp [cachedApiCall, resolveResp, hp1, with_cache, hmem, hres]
  exact ⟨main, by rw [main], by rw [main], by rw [main]⟩

/-- Witness for C4: after a fresh users.list resolution has been
memoized, calling again returns the same ok response and leaves the
counters at one transport call and one disk read. -/
theorem c4_memoized_second_call_witness :
    cachedApiCall
        ⟨".", [("./users-list.json", JVal.obj [("ok", JVal.bool true)])],
         [("./users-list.json", JVal.obj [("ok", JVal.bool true)])], [], 1, 1⟩
        "users.list"
      = (.ok (JVal.obj [("ok", JVal.bool true)]),
         ⟨".", [("./users-list.json", JVal.obj [("ok", JVal.bool true)])],
          [("./users-list.json", JVal.obj [("ok", JVal.bool true)])], [], 1, 1⟩) :=
  (c4_memoized_second_call
    ⟨".", [], [], [JVal.obj [("ok", JVal.bool true)]], 0, 0⟩
    "users.list" "./users-list.json"
    (.ok (JVal.obj [("ok", JVal.bool true)]))
    ⟨".", [("./users-list.json", JVal.obj [("ok", JVal.bool true)])],
     [("./users-list.json", JVal.obj [("ok", JVal.bool true)])], [], 1, 1⟩
    (JVal.obj [("ok", JVal.bool true)]) rfl rfl rfl).1

/-- Witness for C2 amended: a stored users.list payload with truthy ok
is served from disk with the transport untouched. -/
theorem c2_disk_resolution_witness :
    cachedApiCall
        ⟨".", [], [("./users-list.json", JVal.obj [("ok", JVal.bool true)])],
         [], 0, 0⟩ "users.list"
      = (.ok (JVal.obj [("ok", JVal.bool true)]),
         ⟨".", [("./users-list.json", JVal.obj [("ok", JVal.bool true)])],
          [("./users-list.json", JVal.obj [("ok", JVal.bool true)])], [], 0, 1⟩) :=
  (c2_disk_resolution
    ⟨".", [], [("./users-list.json", JVal.obj [("ok", JVal.bool true)])],
     [], 0, 0⟩ "users.list" "./users-list.json"
    (JVal.obj [("ok", JVal.bool true)]) rfl rfl rfl).1

end XSlack
